import Mathlib

/-!
# Spin.h : compile-time selection of the spin-loop hint

A shallow embedding of `Sources/Spin/include/Spin.h`.  The header is one
`#if / #elif / #elif / #else / #endif` section; each group either defines
`static inline void spin_loop(void)` or stops the build with `#error`.

The embedding keeps the header as data (controlling expressions as an
expression tree, groups as lists of items) and gives the C preprocessor's
evaluation rules as functions over that data.
-/

namespace Spin

/-! ## Preprocessor expressions -/

/-- Identifiers visible to the preprocessor: a name is either not defined
(`none`) or defined with an integer replacement (`some v`). -/
abbrev Env := String → Option Int

/-- Controlling expressions of `#if` / `#elif`, restricted to the operators the
header uses: `defined(X)`, an identifier, an integer constant, `&&`, `||`, `>=`. -/
inductive PPExpr where
  | defined (name : String)
  | ident (name : String)
  | lit (value : Int)
  | land (a b : PPExpr)
  | lor (a b : PPExpr)
  | ge (a b : PPExpr)
  deriving DecidableEq, Repr

/-- Evaluation of a controlling expression (C11 6.10.1): `defined` yields 1 or 0,
an identifier is replaced by its value, or by 0 when it is not defined,
and the logical and relational operators yield 1 or 0. -/
def PPExpr.eval (env : Env) : PPExpr → Int
  | .defined n => if (env n).isSome then 1 else 0
  | .ident n => (env n).getD 0
  | .lit v => v
  | .land a b => if a.eval env ≠ 0 then (if b.eval env ≠ 0 then 1 else 0) else 0
  | .lor a b => if a.eval env ≠ 0 then 1 else (if b.eval env ≠ 0 then 1 else 0)
  | .ge a b => if b.eval env ≤ a.eval env then 1 else 0

/-! ## The contents of a group -/

/-- Statements that occur in the bodies of `spin_loop`: a call of a function
without arguments, and a GNU extended `asm` statement
`__asm__ [__volatile__] (template : outputs : inputs : clobbers)`. -/
inductive Stmt where
  | call (fn : String)
  | asm (isVolatile : Bool) (template : String) (outputs inputs clobbers : List String)
  deriving DecidableEq, Repr

/-- A function definition `[static] [inline] returnType name(params) { body }`. -/
structure FunDef where
  isStatic : Bool
  isInline : Bool
  returnType : String
  name : String
  params : List String
  body : List Stmt
  deriving DecidableEq, Repr

/-- The lines a group of the header is made of. -/
inductive Item where
  | includeHeader (header : String)
  | function (f : FunDef)
  | errorDirective (msg : String)
  deriving DecidableEq, Repr

/-- A conditional section: the `#if` / `#elif` groups in source order, each with its
controlling expression, and the `#else` group. -/
structure IfSection where
  branches : List (PPExpr × List Item)
  elseGroup : List Item

/-- What translating the selected group yields when no `#error` is met. -/
structure TranslationUnit where
  includes : List String
  defs : List FunDef
  deriving DecidableEq, Repr

deriving instance DecidableEq for Except

/-! ## Spin.h -/

/-- Line 1:
`defined(_MSC_VER) && _MSC_VER >= 1310 && ( defined(_M_IX86) || defined(_M_X64) )`. -/
def cond_msvc_x86 : PPExpr :=
  .land (.land (.defined "_MSC_VER") (.ge (.ident "_MSC_VER") (.lit 1310)))
    (.lor (.defined "_M_IX86") (.defined "_M_X64"))

/-- Line 9: `defined(__GNUC__) && ( defined(__i386__) || defined(__x86_64__) )`. -/
def cond_gnu_x86 : PPExpr :=
  .land (.defined "__GNUC__") (.lor (.defined "__i386__") (.defined "__x86_64__"))

/-- Line 15:
`(defined(__ARM_ARCH) && __ARM_ARCH >= 8) || defined(__ARM_ARCH_8A__) || defined(__aarch64__)`. -/
def cond_armv8 : PPExpr :=
  .lor (.lor (.land (.defined "__ARM_ARCH") (.ge (.ident "__ARM_ARCH") (.lit 8)))
    (.defined "__ARM_ARCH_8A__")) (.defined "__aarch64__")

/-- Lines 5-7: `static inline void spin_loop(void) { _mm_pause(); }`. -/
def spin_loop_mm_pause : FunDef :=
  { isStatic := true, isInline := true, returnType := "void", name := "spin_loop",
    params := [], body := [.call "_mm_pause"] }

/-- Lines 11-13:
`static inline void spin_loop(void) { __asm__ __volatile__ ("rep; nop" ::: "memory"); }`. -/
def spin_loop_rep_nop : FunDef :=
  { isStatic := true, isInline := true, returnType := "void", name := "spin_loop",
    params := [], body := [.asm true "rep; nop" [] [] ["memory"]] }

/-- Lines 17-19:
`static inline void spin_loop(void) { __asm__ __volatile__("yield;" ::: "memory"); }`. -/
def spin_loop_yield : FunDef :=
  { isStatic := true, isInline := true, returnType := "void", name := "spin_loop",
    params := [], body := [.asm true "yield;" [] [] ["memory"]] }

/-- Line 23: the text of the `#error` directive. -/
def unsupportedDiagnostic : String := "spin_loop not defined for this architecture"

/-- The whole header, lines 1-25. -/
def Spin_h : IfSection :=
  { branches :=
      [ (cond_msvc_x86, [.includeHeader "immintrin.h", .function spin_loop_mm_pause]),
        (cond_gnu_x86, [.function spin_loop_rep_nop]),
        (cond_armv8, [.function spin_loop_yield]) ],
    elseGroup := [.errorDirective unsupportedDiagnostic] }

/-! ## Conditional inclusion and translation -/

/-- Conditional inclusion (C11 6.10.1p6): the controlling expressions are evaluated
in order, the first group whose expression is nonzero is processed, and the `#else`
group is processed when none is. -/
def selectGroup (env : Env) : List (PPExpr × List Item) → List Item → List Item
  | [], e => e
  | (c, g) :: rest, e => if c.eval env ≠ 0 then g else selectGroup env rest e

/-- Translation of a processed group: `#error` stops the build with its diagnostic,
`#include` and function definitions are collected in order. -/
def translate : List Item → Except String TranslationUnit
  | [] => .ok { includes := [], defs := [] }
  | .errorDirective msg :: _ => .error msg
  | .includeHeader h :: rest =>
    match translate rest with
    | .ok tu => .ok { tu with includes := h :: tu.includes }
    | .error msg => .error msg
  | .function f :: rest =>
    match translate rest with
    | .ok tu => .ok { tu with defs := f :: tu.defs }
    | .error msg => .error msg

/-- The outcome of compiling a translation unit that includes Spin.h under `env`:
either the diagnostic of `#error`, or the definitions the header contributes. -/
def select (env : Env) : Except String TranslationUnit :=
  translate (selectGroup env Spin_h.branches Spin_h.elseGroup)

/-- The definitions of `spin_loop` in a given outcome (none when the build stopped). -/
def definitionsIn : Except String TranslationUnit → List FunDef
  | .ok tu => tu.defs.filter (fun f => f.name == "spin_loop")
  | .error _ => []

/-- The definitions of `spin_loop` a build under `env` ends up with. -/
def spin_loop_defs (env : Env) : List FunDef := definitionsIn (select env)

/-! ## The recognised cases, stated on the environment -/

/-- The name `n` is defined with a value of at least `k`. -/
def definedAtLeast (env : Env) (n : String) (k : Int) : Prop :=
  ∃ v, env n = some v ∧ k ≤ v

instance (env : Env) (n : String) (k : Int) : Decidable (definedAtLeast env n k) :=
  match h : env n with
  | none => isFalse (fun ⟨_, hv, _⟩ => by rw [h] at hv; cases hv)
  | some v =>
    if hk : k ≤ v then isTrue ⟨v, h, hk⟩
    else isFalse (fun ⟨w, hw, hkw⟩ => by rw [h] at hw; cases hw; exact hk hkw)

/-- Case 1: `_MSC_VER` is defined with a value of at least 1310 and one of
`_M_IX86`, `_M_X64` is defined. -/
def msvcX86 (env : Env) : Prop :=
  definedAtLeast env "_MSC_VER" 1310 ∧ (env "_M_IX86" ≠ none ∨ env "_M_X64" ≠ none)

/-- Case 2: `__GNUC__` is defined and one of `__i386__`, `__x86_64__` is defined. -/
def gnuX86 (env : Env) : Prop :=
  env "__GNUC__" ≠ none ∧ (env "__i386__" ≠ none ∨ env "__x86_64__" ≠ none)

/-- Case 3: `__ARM_ARCH` is defined with a value of at least 8, or `__ARM_ARCH_8A__`
is defined, or `__aarch64__` is defined. -/
def armv8 (env : Env) : Prop :=
  definedAtLeast env "__ARM_ARCH" 8 ∨ env "__ARM_ARCH_8A__" ≠ none ∨ env "__aarch64__" ≠ none

instance (env : Env) : Decidable (msvcX86 env) := by unfold msvcX86; infer_instance

instance (env : Env) : Decidable (gnuX86 env) := by unfold gnuX86; infer_instance

instance (env : Env) : Decidable (armv8 env) := by unfold armv8; infer_instance

/-- The outcome of the first group: `immintrin.h` included, `spin_loop` calling
`_mm_pause()`. -/
def pauseIntrinsic : Except String TranslationUnit :=
  .ok { includes := ["immintrin.h"], defs := [spin_loop_mm_pause] }

/-- The outcome of the second group: `spin_loop` with the `"rep; nop"` assembly. -/
def repNopAsm : Except String TranslationUnit :=
  .ok { includes := [], defs := [spin_loop_rep_nop] }

/-- The outcome of the third group: `spin_loop` with the `"yield;"` assembly. -/
def yieldAsm : Except String TranslationUnit :=
  .ok { includes := [], defs := [spin_loop_yield] }

/-! ## What the selected body asks the toolchain to emit

The header hands a statement to the toolchain's intrinsic or inline-assembly
facility.  The part of that facility the three bodies exercise is modelled here:
how the assembler cuts a template into statements, the x86 encodings of `rep`,
`nop`, `pause` and the fences, and the ARM hint and barrier mnemonics. -/

/-- The instruction sets the header distinguishes. -/
inductive Target where
  | x86
  | arm
  deriving DecidableEq, Repr

/-- The instructions the model tells apart. -/
inductive HwInstr where
  | pause
  | yield
  | nop
  | fence
  deriving DecidableEq, Repr

/-- The spin-wait hints: `pause` on x86, `yield` on ARM. -/
def HwInstr.isHint : HwInstr → Bool
  | .pause => true
  | .yield => true
  | .nop => false
  | .fence => false

def isSeparator (c : Char) : Bool := c = ';' || c = Char.ofNat 10

def isBlank (c : Char) : Bool := c = ' ' || c = Char.ofNat 9

/-- Cuts a template at every `;` and newline. -/
def splitStatements : List Char → List (List Char)
  | [] => [[]]
  | c :: cs =>
    match splitStatements cs with
    | [] => [[]]
    | cur :: rest => if isSeparator c then [] :: cur :: rest else (c :: cur) :: rest

def trimBlanks (cs : List Char) : List Char :=
  ((cs.dropWhile isBlank).reverse.dropWhile isBlank).reverse

/-- The assembler statements of a template: the pieces between separators, without
surrounding blanks, empty pieces dropped. -/
def asmStatements (template : String) : List String :=
  (((splitStatements template.toList).map trimBlanks).filter (fun cs => !cs.isEmpty)).map
    String.mk

/-- Bytes the assembler produces for an x86 statement.  A lone `rep` assembles to the
byte F3, which then stands in front of the next instruction. -/
def encodeX86 (stmt : String) : Option (List Nat) :=
  if stmt = "rep" then some [0xF3]
  else if stmt = "nop" then some [0x90]
  else if stmt = "pause" then some [0xF3, 0x90]
  else if stmt = "mfence" then some [0x0F, 0xAE, 0xF0]
  else if stmt = "lfence" then some [0x0F, 0xAE, 0xE8]
  else if stmt = "sfence" then some [0x0F, 0xAE, 0xF8]
  else none

def encodeAllX86 : List String → Option (List Nat)
  | [] => some []
  | st :: rest =>
    match encodeX86 st, encodeAllX86 rest with
    | some b, some bs => some (b ++ bs)
    | _, _ => none

/-- Instruction boundaries in an x86 byte stream: F3 90 is `pause`, a bare 90 is `nop`,
0F AE F0 / E8 / F8 are the fences. -/
def decodeX86 : List Nat → Option (List HwInstr)
  | [] => some []
  | 0xF3 :: 0x90 :: rest => (decodeX86 rest).map (fun is => HwInstr.pause :: is)
  | 0x90 :: rest => (decodeX86 rest).map (fun is => HwInstr.nop :: is)
  | 0x0F :: 0xAE :: 0xF0 :: rest => (decodeX86 rest).map (fun is => HwInstr.fence :: is)
  | 0x0F :: 0xAE :: 0xE8 :: rest => (decodeX86 rest).map (fun is => HwInstr.fence :: is)
  | 0x0F :: 0xAE :: 0xF8 :: rest => (decodeX86 rest).map (fun is => HwInstr.fence :: is)
  | _ => none

/-- The instruction an ARM statement assembles to. -/
def assembleArm (stmt : String) : Option HwInstr :=
  if stmt = "yield" then some .yield
  else if stmt = "nop" then some .nop
  else if stmt = "dmb sy" then some .fence
  else if stmt = "dmb ish" then some .fence
  else if stmt = "dsb sy" then some .fence
  else if stmt = "isb" then some .fence
  else none

def assembleAllArm : List String → Option (List HwInstr)
  | [] => some []
  | st :: rest =>
    match assembleArm st, assembleAllArm rest with
    | some i, some is => some (i :: is)
    | _, _ => none

/-- The instructions an intrinsic call compiles to. -/
def intrinsicInstrs (t : Target) (fn : String) : Option (List HwInstr) :=
  match t with
  | .x86 =>
    if fn = "_mm_pause" then some [.pause]
    else if fn = "_mm_mfence" then some [.fence]
    else if fn = "_mm_lfence" then some [.fence]
    else if fn = "_mm_sfence" then some [.fence]
    else none
  | .arm => none

/-- The instructions a statement puts into the instruction stream on target `t`;
`none` when the toolchain rejects it. -/
def emit (t : Target) : Stmt → Option (List HwInstr)
  | .call fn => intrinsicInstrs t fn
  | .asm _ template _ _ _ =>
    match t with
    | .x86 => (encodeAllX86 (asmStatements template)).bind decodeX86
    | .arm => assembleAllArm (asmStatements template)

def emitBody (t : Target) : List Stmt → Option (List HwInstr)
  | [] => some []
  | st :: rest =>
    match emit t st, emitBody t rest with
    | some is, some js => some (is ++ js)
    | _, _ => none

/-- The instruction set a group of the header is written for, in the header's order
of precedence. -/
def targetOf (env : Env) : Option Target :=
  if msvcX86 env then some .x86
  else if gnuX86 env then some .x86
  else if armv8 env then some .arm
  else none

/-- An environment given by a finite list of definitions. -/
def envOf (defs : List (String × Int)) : Env := fun n => defs.lookup n

/-! ## Evaluation lemmas -/

theorem eval_defined (env : Env) (n : String) :
    (PPExpr.defined n).eval env ≠ 0 ↔ env n ≠ none := by
  cases h : env n <;> simp [PPExpr.eval, h]

theorem eval_land (env : Env) (a b : PPExpr) :
    (PPExpr.land a b).eval env ≠ 0 ↔ a.eval env ≠ 0 ∧ b.eval env ≠ 0 := by
  by_cases ha : a.eval env = 0 <;> by_cases hb : b.eval env = 0 <;> simp [PPExpr.eval, ha, hb]

theorem eval_lor (env : Env) (a b : PPExpr) :
    (PPExpr.lor a b).eval env ≠ 0 ↔ a.eval env ≠ 0 ∨ b.eval env ≠ 0 := by
  by_cases ha : a.eval env = 0 <;> by_cases hb : b.eval env = 0 <;> simp [PPExpr.eval, ha, hb]

theorem eval_ge (env : Env) (a b : PPExpr) :
    (PPExpr.ge a b).eval env ≠ 0 ↔ b.eval env ≤ a.eval env := by
  by_cases h : b.eval env ≤ a.eval env <;> simp [PPExpr.eval, h]

/-- A guarded version test `defined(X) && X >= k` holds exactly when `X` is defined with a
value of at least `k`. -/
theorem eval_defined_ge (env : Env) (n : String) (k : Int) :
    (env n ≠ none ∧ (PPExpr.lit k).eval env ≤ (PPExpr.ident n).eval env) ↔
      definedAtLeast env n k := by
  unfold definedAtLeast
  cases h : env n <;> simp [PPExpr.eval, h]

theorem eval_cond_msvc_x86 (env : Env) : cond_msvc_x86.eval env ≠ 0 ↔ msvcX86 env := by
  unfold cond_msvc_x86 msvcX86
  rw [eval_land, eval_land, eval_lor, eval_ge, eval_defined, eval_defined, eval_defined,
    eval_defined_ge]

theorem eval_cond_gnu_x86 (env : Env) : cond_gnu_x86.eval env ≠ 0 ↔ gnuX86 env := by
  unfold cond_gnu_x86 gnuX86
  rw [eval_land, eval_lor, eval_defined, eval_defined, eval_defined]

theorem eval_cond_armv8 (env : Env) : cond_armv8.eval env ≠ 0 ↔ armv8 env := by
  unfold cond_armv8 armv8
  rw [eval_lor, eval_lor, eval_land, eval_ge, eval_defined, eval_defined, eval_defined,
    eval_defined_ge, or_assoc]

/-- The header's selection, case by case. -/
theorem select_cases (env : Env) :
    select env =
      if msvcX86 env then pauseIntrinsic
      else if gnuX86 env then repNopAsm
      else if armv8 env then yieldAsm
      else .error unsupportedDiagnostic := by
  unfold select Spin_h
  simp only [selectGroup, eval_cond_msvc_x86, eval_cond_gnu_x86, eval_cond_armv8]
  split_ifs <;> rfl

theorem outcomes_distinct :
    pauseIntrinsic ≠ repNopAsm ∧ pauseIntrinsic ≠ yieldAsm ∧ repNopAsm ≠ yieldAsm ∧
      pauseIntrinsic ≠ .error unsupportedDiagnostic ∧
      repNopAsm ≠ .error unsupportedDiagnostic ∧ yieldAsm ≠ .error unsupportedDiagnostic := by
  decide

theorem select_of_msvcX86 (env : Env) (h1 : msvcX86 env) : select env = pauseIntrinsic := by
  rw [select_cases, if_pos h1]

theorem select_of_gnuX86 (env : Env) (h1 : ¬ msvcX86 env) (h2 : gnuX86 env) :
    select env = repNopAsm := by
  rw [select_cases, if_neg h1, if_pos h2]

theorem select_of_armv8 (env : Env) (h1 : ¬ msvcX86 env) (h2 : ¬ gnuX86 env)
    (h3 : armv8 env) : select env = yieldAsm := by
  rw [select_cases, if_neg h1, if_neg h2, if_pos h3]

theorem select_of_no_case (env : Env) (h1 : ¬ msvcX86 env) (h2 : ¬ gnuX86 env)
    (h3 : ¬ armv8 env) : select env = .error unsupportedDiagnostic := by
  rw [select_cases, if_neg h1, if_neg h2, if_neg h3]

theorem spin_loop_defs_of_select (env : Env) (r : Except String TranslationUnit)
    (h : select env = r) :
    spin_loop_defs env = definitionsIn r := by
  subst h
  rfl

/-- The four outcomes the header can have, with the condition of each. -/
theorem select_outcome (env : Env) :
    (msvcX86 env ∧ select env = pauseIntrinsic ∧ spin_loop_defs env = [spin_loop_mm_pause]) ∨
    (¬ msvcX86 env ∧ gnuX86 env ∧ select env = repNopAsm ∧
      spin_loop_defs env = [spin_loop_rep_nop]) ∨
    (¬ msvcX86 env ∧ ¬ gnuX86 env ∧ armv8 env ∧ select env = yieldAsm ∧
      spin_loop_defs env = [spin_loop_yield]) ∨
    (¬ msvcX86 env ∧ ¬ gnuX86 env ∧ ¬ armv8 env ∧
      select env = .error unsupportedDiagnostic ∧ spin_loop_defs env = []) := by
  by_cases h1 : msvcX86 env
  · have hs := select_of_msvcX86 env h1
    exact Or.inl ⟨h1, hs, by rw [spin_loop_defs_of_select env _ hs]; decide⟩
  · by_cases h2 : gnuX86 env
    · have hs := select_of_gnuX86 env h1 h2
      exact Or.inr (Or.inl ⟨h1, h2, hs, by rw [spin_loop_defs_of_select env _ hs]; decide⟩)
    · by_cases h3 : armv8 env
      · have hs := select_of_armv8 env h1 h2 h3
        exact Or.inr (Or.inr (Or.inl
          ⟨h1, h2, h3, hs, by rw [spin_loop_defs_of_select env _ hs]; decide⟩))
      · have hs := select_of_no_case env h1 h2 h3
        exact Or.inr (Or.inr (Or.inr
          ⟨h1, h2, h3, hs, by rw [spin_loop_defs_of_select env _ hs]; rfl⟩))

/-! ## Selection: claims C1 - C6 -/

/-- C1: the build stops at `#error` if and only if none of the three recognised
cases matches; the diagnostic is then the one of line 23, no translation unit results
and no definition of `spin_loop` is produced; in every other environment the build
yields a translation unit. -/
theorem select_error_iff_no_case (env : Env) :
    ((∃ msg, select env = .error msg) ↔ (¬ msvcX86 env ∧ ¬ gnuX86 env ∧ ¬ armv8 env)) ∧
    (select env = .error unsupportedDiagnostic ↔
      (¬ msvcX86 env ∧ ¬ gnuX86 env ∧ ¬ armv8 env)) ∧
    ((∃ tu, select env = .ok tu) ↔ (msvcX86 env ∨ gnuX86 env ∨ armv8 env)) ∧
    (spin_loop_defs env = [] ↔ (¬ msvcX86 env ∧ ¬ gnuX86 env ∧ ¬ armv8 env)) := by
  rcases select_outcome env with ⟨h1, hs, hd⟩ | ⟨h1, h2, hs, hd⟩ | ⟨h1, h2, h3, hs, hd⟩ |
      ⟨h1, h2, h3, hs, hd⟩
  · rw [hs, hd]; simp [h1, pauseIntrinsic]
  · rw [hs, hd]; simp [h1, h2, repNopAsm]
  · rw [hs, hd]; simp [h1, h2, h3, yieldAsm]
  · rw [hs, hd]; simp [h1, h2, h3]

/-- C2: when both the case-1 condition and the case-2 condition hold, the header
selects the `_mm_pause()` definition, not the `"rep; nop"` one. -/
theorem intrinsic_before_inline_asm (env : Env) (h1 : msvcX86 env) (_h2 : gnuX86 env) :
    select env = pauseIntrinsic ∧ select env ≠ repNopAsm ∧
      spin_loop_defs env = [spin_loop_mm_pause] ∧
      spin_loop_defs env ≠ [spin_loop_rep_nop] := by
  have hs := select_of_msvcX86 env h1
  refine ⟨hs, ?_, ?_, ?_⟩
  · rw [hs]; exact outcomes_distinct.1
  · rw [spin_loop_defs_of_select env _ hs]; decide
  · rw [spin_loop_defs_of_select env _ hs]; decide

theorem intrinsic_before_inline_asm_witness :
    select (envOf [("_MSC_VER", 1900), ("_M_X64", 100), ("__GNUC__", 4), ("__x86_64__", 1)])
        = pauseIntrinsic :=
  (intrinsic_before_inline_asm
    (envOf [("_MSC_VER", 1900), ("_M_X64", 100), ("__GNUC__", 4), ("__x86_64__", 1)])
    (by decide) (by decide)).1

/-- C3: in each of the four supported combinations (case 1; case 2; `__ARM_ARCH >= 8`
or `__ARM_ARCH_8A__` without `__aarch64__`; `__aarch64__`), whatever else is defined,
the build does not reach `#error` and exactly one definition of `spin_loop` results. -/
theorem supported_combinations_define_spin_loop (env : Env)
    (h : msvcX86 env ∨ gnuX86 env ∨
      ((definedAtLeast env "__ARM_ARCH" 8 ∨ env "__ARM_ARCH_8A__" ≠ none) ∧
        env "__aarch64__" = none) ∨
      env "__aarch64__" ≠ none) :
    (∀ msg, select env ≠ .error msg) ∧
      (∃ tu f, select env = .ok tu ∧ tu.defs = [f] ∧ f.name = "spin_loop") ∧
      (spin_loop_defs env).length = 1 := by
  have harm : msvcX86 env ∨ gnuX86 env ∨ armv8 env := by
    rcases h with h | h | h | h
    · exact Or.inl h
    · exact Or.inr (Or.inl h)
    · rcases h.1 with h' | h'
      · exact Or.inr (Or.inr (Or.inl h'))
      · exact Or.inr (Or.inr (Or.inr (Or.inl h')))
    · exact Or.inr (Or.inr (Or.inr (Or.inr h)))
  rcases select_outcome env with ⟨_, hs, hd⟩ | ⟨_, _, hs, hd⟩ | ⟨_, _, _, hs, hd⟩ |
      ⟨h1, h2, h3, _, _⟩
  · rw [hs, hd]
    exact ⟨by simp [pauseIntrinsic], ⟨_, spin_loop_mm_pause, rfl, rfl, rfl⟩, rfl⟩
  · rw [hs, hd]
    exact ⟨by simp [repNopAsm], ⟨_, spin_loop_rep_nop, rfl, rfl, rfl⟩, rfl⟩
  · rw [hs, hd]
    exact ⟨by simp [yieldAsm], ⟨_, spin_loop_yield, rfl, rfl, rfl⟩, rfl⟩
  · exact absurd harm (by tauto)

theorem supported_combinations_define_spin_loop_witness :
    (spin_loop_defs (envOf [("_MSC_VER", 1310), ("_M_IX86", 600)])).length = 1 ∧
    (spin_loop_defs (envOf [("__GNUC__", 12), ("__i386__", 1)])).length = 1 ∧
    (spin_loop_defs (envOf [("__ARM_ARCH", 8), ("__ARM_ARCH_8A__", 1), ("__arm__", 1)])).length
      = 1 ∧
    (spin_loop_defs (envOf [("__aarch64__", 1), ("__ARM_ARCH", 8), ("__GNUC__", 12)])).length
      = 1 :=
  ⟨(supported_combinations_define_spin_loop
      (envOf [("_MSC_VER", 1310), ("_M_IX86", 600)]) (by decide)).2.2,
   (supported_combinations_define_spin_loop
      (envOf [("__GNUC__", 12), ("__i386__", 1)]) (by decide)).2.2,
   (supported_combinations_define_spin_loop
      (envOf [("__ARM_ARCH", 8), ("__ARM_ARCH_8A__", 1), ("__arm__", 1)]) (by decide)).2.2,
   (supported_combinations_define_spin_loop
      (envOf [("__aarch64__", 1), ("__ARM_ARCH", 8), ("__GNUC__", 12)]) (by decide)).2.2⟩

/-- C4: `spin_loop` is defined as the single call `_mm_pause()`, with `immintrin.h`
included, if and only if `_MSC_VER` is defined with a value of at least 1310 and
`_M_IX86` or `_M_X64` is defined; an environment that agrees on these three names
gets the same answer, whatever else it defines. -/
theorem pause_intrinsic_iff_msvcX86 (env : Env) :
    (select env = .ok { includes := ["immintrin.h"], defs := [spin_loop_mm_pause] } ↔
      msvcX86 env) ∧
    (spin_loop_defs env = [spin_loop_mm_pause] ↔ msvcX86 env) ∧
    spin_loop_mm_pause.body = [Stmt.call "_mm_pause"] ∧
    (∀ other : Env, other "_MSC_VER" = env "_MSC_VER" → other "_M_IX86" = env "_M_IX86" →
      other "_M_X64" = env "_M_X64" →
      (select other = pauseIntrinsic ↔ select env = pauseIntrinsic)) := by
  have key : ∀ e : Env, select e = pauseIntrinsic ↔ msvcX86 e := by
    intro e
    rcases select_outcome e with ⟨h1, hs, _⟩ | ⟨h1, _, hs, _⟩ | ⟨h1, _, _, hs, _⟩ |
        ⟨h1, _, _, hs, _⟩
    · rw [hs]; simp [h1]
    · rw [hs]; simp [h1, outcomes_distinct.1.symm]
    · rw [hs]; simp [h1, outcomes_distinct.2.1.symm]
    · rw [hs]; simp [h1, outcomes_distinct.2.2.2.1.symm]
  refine ⟨key env, ?_, rfl, ?_⟩
  · rcases select_outcome env with ⟨h1, _, hd⟩ | ⟨h1, _, _, hd⟩ | ⟨h1, _, _, _, hd⟩ |
        ⟨h1, _, _, _, hd⟩
    · rw [hd]; simp [h1]
    · rw [hd]; simp only [h1, iff_false]; decide
    · rw [hd]; simp only [h1, iff_false]; decide
    · rw [hd]; simp only [h1, iff_false]; decide
  · intro other hv h86 h64
    rw [key other, key env]
    unfold msvcX86 definedAtLeast
    rw [hv, h86, h64]

theorem pause_intrinsic_iff_msvcX86_witness :
    select (envOf [("_MSC_VER", 1929), ("_M_X64", 100), ("__aarch64__", 1), ("__GNUC__", 4)])
        = pauseIntrinsic ↔
      select (envOf [("_MSC_VER", 1929), ("_M_X64", 100)]) = pauseIntrinsic :=
  (pause_intrinsic_iff_msvcX86 (envOf [("_MSC_VER", 1929), ("_M_X64", 100)])).2.2.2
    (envOf [("_MSC_VER", 1929), ("_M_X64", 100), ("__aarch64__", 1), ("__GNUC__", 4)])
    (by decide) (by decide) (by decide)

/-- C5: `spin_loop` is defined as `__asm__ __volatile__ ("rep; nop" ::: "memory")`
if and only if case 1 does not match and `__GNUC__` is defined with `__i386__` or
`__x86_64__`; the ARM condition holding as well does not change that. -/
theorem rep_nop_iff_gnuX86_not_msvcX86 (env : Env) :
    (select env = .ok { includes := [], defs := [spin_loop_rep_nop] } ↔
      (¬ msvcX86 env ∧ gnuX86 env)) ∧
    (spin_loop_defs env = [spin_loop_rep_nop] ↔ (¬ msvcX86 env ∧ gnuX86 env)) ∧
    spin_loop_rep_nop.body = [Stmt.asm true "rep; nop" [] [] ["memory"]] ∧
    (¬ msvcX86 env ∧ gnuX86 env ∧ armv8 env → select env = repNopAsm) := by
  refine ⟨?_, ?_, rfl, fun h => select_of_gnuX86 env h.1 h.2.1⟩
  · change select env = repNopAsm ↔ _
    rcases select_outcome env with ⟨h1, hs, _⟩ | ⟨h1, h2, hs, _⟩ | ⟨h1, h2, _, hs, _⟩ |
        ⟨h1, h2, _, hs, _⟩
    · rw [hs]; simp [h1, outcomes_distinct.1]
    · rw [hs]; simp [h1, h2]
    · rw [hs]; simp [h2, outcomes_distinct.2.2.1.symm]
    · rw [hs]; simp [h2, outcomes_distinct.2.2.2.2.1.symm]
  · rcases select_outcome env with ⟨h1, _, hd⟩ | ⟨h1, h2, _, hd⟩ | ⟨h1, h2, _, _, hd⟩ |
        ⟨h1, h2, _, _, hd⟩
    · rw [hd]; simp only [h1, not_true_eq_false, false_and, iff_false]; decide
    · rw [hd]; simp [h1, h2]
    · rw [hd]; simp only [h2, and_false, iff_false]; decide
    · rw [hd]; simp only [h2, and_false, iff_false]; decide

theorem rep_nop_iff_gnuX86_not_msvcX86_witness :
    select (envOf [("__GNUC__", 12), ("__x86_64__", 1), ("__ARM_ARCH", 8), ("__aarch64__", 1),
      ("__ARM_ARCH_8A__", 1)]) = repNopAsm :=
  (rep_nop_iff_gnuX86_not_msvcX86 (envOf [("__GNUC__", 12), ("__x86_64__", 1),
    ("__ARM_ARCH", 8), ("__aarch64__", 1), ("__ARM_ARCH_8A__", 1)])).2.2.2 (by decide)

/-- C6: when neither x86 case matches, `spin_loop` is defined as
`__asm__ __volatile__("yield;" ::: "memory")` exactly when `__ARM_ARCH` is defined with
a value of at least 8, or `__ARM_ARCH_8A__` or `__aarch64__` is defined; the yield
variant is selected in no environment where this condition fails, in particular
not when `__ARM_ARCH` is below 8 and neither of the other two names is defined. -/
theorem yield_iff_armv8_not_x86 (env : Env) :
    (select env = .ok { includes := [], defs := [spin_loop_yield] } ↔
      (¬ msvcX86 env ∧ ¬ gnuX86 env ∧ armv8 env)) ∧
    (¬ msvcX86 env ∧ ¬ gnuX86 env → (select env = yieldAsm ↔ armv8 env)) ∧
    (¬ msvcX86 env ∧ ¬ gnuX86 env → (spin_loop_defs env = [spin_loop_yield] ↔ armv8 env)) ∧
    spin_loop_yield.body = [Stmt.asm true "yield;" [] [] ["memory"]] ∧
    (¬ armv8 env → select env ≠ yieldAsm ∧ spin_loop_defs env ≠ [spin_loop_yield]) ∧
    ((∃ v, env "__ARM_ARCH" = some v ∧ v < 8) ∧ env "__ARM_ARCH_8A__" = none ∧
        env "__aarch64__" = none →
      select env ≠ yieldAsm ∧ spin_loop_defs env ≠ [spin_loop_yield]) := by
  have key : select env = yieldAsm ↔ (¬ msvcX86 env ∧ ¬ gnuX86 env ∧ armv8 env) := by
    rcases select_outcome env with ⟨h1, hs, _⟩ | ⟨h1, h2, hs, _⟩ | ⟨h1, h2, h3, hs, _⟩ |
        ⟨h1, h2, h3, hs, _⟩
    · rw [hs]; simp [h1, outcomes_distinct.2.1]
    · rw [hs]; simp [h2, outcomes_distinct.2.2.1]
    · rw [hs]; simp [h1, h2, h3]
    · rw [hs]; simp [h3, outcomes_distinct.2.2.2.2.2.symm]
  have keyd : spin_loop_defs env = [spin_loop_yield] ↔
      (¬ msvcX86 env ∧ ¬ gnuX86 env ∧ armv8 env) := by
    rcases select_outcome env with ⟨h1, _, hd⟩ | ⟨h1, h2, _, hd⟩ | ⟨h1, h2, h3, _, hd⟩ |
        ⟨h1, h2, h3, _, hd⟩
    · rw [hd]; simp only [h1, not_true_eq_false, false_and, iff_false]; decide
    · rw [hd]; simp only [h2, not_true_eq_false, false_and, and_false, iff_false]; decide
    · rw [hd]; simp [h1, h2, h3]
    · rw [hd]; simp only [h3, and_false, iff_false]; decide
  have hno : ¬ armv8 env → select env ≠ yieldAsm ∧ spin_loop_defs env ≠ [spin_loop_yield] :=
    fun h => ⟨fun hs => h (key.1 hs).2.2, fun hd => h (keyd.1 hd).2.2⟩
  refine ⟨key, ?_, ?_, rfl, hno, ?_⟩
  · intro h; rw [key]; exact ⟨fun x => x.2.2, fun x => ⟨h.1, h.2, x⟩⟩
  · intro h; rw [keyd]; exact ⟨fun x => x.2.2, fun x => ⟨h.1, h.2, x⟩⟩
  · rintro ⟨⟨v, hv, hlt⟩, h8a, h64⟩
    apply hno
    unfold armv8 definedAtLeast
    rw [hv, h8a, h64]
    simp
    omega

theorem yield_iff_armv8_not_x86_witness :
    select (envOf [("__ARM_ARCH", 7), ("__arm__", 1)]) ≠ yieldAsm ∧
      spin_loop_defs (envOf [("__ARM_ARCH", 7), ("__arm__", 1)]) ≠ [spin_loop_yield] :=
  (yield_iff_armv8_not_x86 (envOf [("__ARM_ARCH", 7), ("__arm__", 1)])).2.2.2.2.2
    ⟨⟨7, by decide, by decide⟩, by decide, by decide⟩

/-! ## The selected body: claims C8 and C9 -/

theorem targetOf_of_msvcX86 (env : Env) (h1 : msvcX86 env) : targetOf env = some .x86 := by
  unfold targetOf; rw [if_pos h1]

theorem targetOf_of_gnuX86 (env : Env) (h1 : ¬ msvcX86 env) (h2 : gnuX86 env) :
    targetOf env = some .x86 := by
  unfold targetOf; rw [if_neg h1, if_pos h2]

theorem targetOf_of_armv8 (env : Env) (h1 : ¬ msvcX86 env) (h2 : ¬ gnuX86 env)
    (h3 : armv8 env) : targetOf env = some .arm := by
  unfold targetOf; rw [if_neg h1, if_neg h2, if_pos h3]

/-- What a successful selection fixes: the target, the single definition, the single
statement of its body and the single instruction that statement emits. -/
theorem selected_body (env : Env) (tu : TranslationUnit) (h : select env = .ok tu) :
    (targetOf env = some .x86 ∧ tu.defs = [spin_loop_mm_pause] ∧
      emitBody .x86 spin_loop_mm_pause.body = some [.pause]) ∨
    (targetOf env = some .x86 ∧ tu.defs = [spin_loop_rep_nop] ∧
      emitBody .x86 spin_loop_rep_nop.body = some [.pause]) ∨
    (targetOf env = some .arm ∧ tu.defs = [spin_loop_yield] ∧
      emitBody .arm spin_loop_yield.body = some [.yield]) := by
  rcases select_outcome env with ⟨h1, hs, _⟩ | ⟨h1, h2, hs, _⟩ | ⟨h1, h2, h3, hs, _⟩ |
      ⟨_, _, _, hs, _⟩
  · rw [hs] at h
    have htu : tu = { includes := ["immintrin.h"], defs := [spin_loop_mm_pause] } :=
      (Except.ok.inj h).symm
    subst htu
    exact Or.inl ⟨targetOf_of_msvcX86 env h1, rfl, by decide⟩
  · rw [hs] at h
    have htu : tu = { includes := [], defs := [spin_loop_rep_nop] } := (Except.ok.inj h).symm
    subst htu
    exact Or.inr (Or.inl ⟨targetOf_of_gnuX86 env h1 h2, rfl, by decide⟩)
  · rw [hs] at h
    have htu : tu = { includes := [], defs := [spin_loop_yield] } := (Except.ok.inj h).symm
    subst htu
    exact Or.inr (Or.inr ⟨targetOf_of_armv8 env h1 h2 h3, rfl, by decide⟩)
  · rw [hs] at h
    cases h

/-- C9: in every environment in which selection succeeds, the selected definition of
`spin_loop` has a body of one statement, and that statement puts exactly one
instruction into the instruction stream, a spin-wait hint: `pause` for the call
`_mm_pause()`, `pause` for the template `"rep; nop"` (two assembler statements whose
bytes F3 90 are the one instruction), `yield` for the template `"yield;"`. -/
theorem spin_loop_emits_exactly_one_hint (env : Env) (tu : TranslationUnit)
    (h : select env = .ok tu) :
    ∃ t f st i, targetOf env = some t ∧ tu.defs = [f] ∧ f.body = [st] ∧
      emitBody t f.body = some [i] ∧ i.isHint = true ∧
      ((st = Stmt.call "_mm_pause" ∧ t = .x86 ∧ i = .pause) ∨
       (st = Stmt.asm true "rep; nop" [] [] ["memory"] ∧ t = .x86 ∧ i = .pause ∧
          asmStatements "rep; nop" = ["rep", "nop"] ∧
          encodeAllX86 ["rep", "nop"] = some [0xF3, 0x90] ∧
          decodeX86 [0xF3, 0x90] = some [.pause]) ∨
       (st = Stmt.asm true "yield;" [] [] ["memory"] ∧ t = .arm ∧ i = .yield ∧
          asmStatements "yield;" = ["yield"])) := by
  rcases selected_body env tu h with ⟨ht, hd, he⟩ | ⟨ht, hd, he⟩ | ⟨ht, hd, he⟩
  · exact ⟨_, _, _, HwInstr.pause, ht, hd, rfl, he, rfl, Or.inl ⟨rfl, rfl, rfl⟩⟩
  · exact ⟨_, _, _, HwInstr.pause, ht, hd, rfl, he, rfl,
      Or.inr (Or.inl ⟨rfl, rfl, rfl, by decide, by decide, by decide⟩)⟩
  · exact ⟨_, _, _, HwInstr.yield, ht, hd, rfl, he, rfl,
      Or.inr (Or.inr ⟨rfl, rfl, rfl, by decide⟩)⟩

theorem spin_loop_emits_exactly_one_hint_witness :
    ∃ t f st i, targetOf (envOf [("__aarch64__", 1), ("__GNUC__", 12)]) = some t ∧
      [spin_loop_yield] = [f] ∧ f.body = [st] ∧
      emitBody t f.body = some [i] ∧ i.isHint = true ∧
      ((st = Stmt.call "_mm_pause" ∧ t = .x86 ∧ i = .pause) ∨
       (st = Stmt.asm true "rep; nop" [] [] ["memory"] ∧ t = .x86 ∧ i = .pause ∧
          asmStatements "rep; nop" = ["rep", "nop"] ∧
          encodeAllX86 ["rep", "nop"] = some [0xF3, 0x90] ∧
          decodeX86 [0xF3, 0x90] = some [.pause]) ∨
       (st = Stmt.asm true "yield;" [] [] ["memory"] ∧ t = .arm ∧ i = .yield ∧
          asmStatements "yield;" = ["yield"])) :=
  spin_loop_emits_exactly_one_hint (envOf [("__aarch64__", 1), ("__GNUC__", 12)])
    { includes := [], defs := [spin_loop_yield] } (by decide)

end Spin
